import Mathlib

/-!
# Verification of the Image-factory prompt-construction and selection pipeline

Shallow embedding of the core logic of the Image-factory repository:
the prompt synthesizer, the region selection set, the generation request
orchestrator (`App.tsx`), and the Gemini service adapters
(`services/geminiService.ts`).

JavaScript numbers are modelled as rationals (`ℚ`); all coordinates handled
by the app are normalized decimals for which this model is exact.
External collaborators (the Gemini backend, `JSON.parse`, `fileToBase64`)
are modelled as oracle parameters: the embedded functions receive the
outcome of the external call and perform the same case analysis as the
source.
-/

/-- `DetectedObject.boundingBox` from `services/geminiService.ts`:
four coordinates normalized to [0,1]. -/
structure BoundingBox where
  x_min : ℚ
  y_min : ℚ
  x_max : ℚ
  y_max : ℚ
deriving DecidableEq, Repr

/-- `DetectedObject` from `services/geminiService.ts`: a labelled region. -/
structure DetectedObject where
  label : String
  boundingBox : BoundingBox
deriving DecidableEq, Repr

/-- The `ImageState` payload from `App.tsx`: the encoded source string and
the file's media type (the only two fields the core logic reads). -/
structure ImageFile where
  src : String
  fileType : String
deriving DecidableEq, Repr

/-- `PresetKey` from `constants/editPresets.ts`. -/
inductive PresetKey where
  | vintageFilter
  | removeText
  | blueBg
  | sketch
  | dramatic
deriving DecidableEq, Repr

/-- One entry of `EDIT_PRESETS` from `constants/editPresets.ts`. -/
structure EditPreset where
  prompt : String
  label : String
  icon : String
deriving DecidableEq, Repr

/-- `EDIT_PRESETS` from `constants/editPresets.ts`. -/
def EDIT_PRESETS : PresetKey → EditPreset
  | .vintageFilter =>
    { prompt := "Add a retro, vintage filter with warm tones"
      label := "Vintage Filter", icon := "📷" }
  | .removeText =>
    { prompt := "Remove any obvious watermarks or overlaid text from the image. Preserve text that is part of the original scene, like text on books or signs."
      label := "Remove Text", icon := "🚫" }
  | .blueBg =>
    { prompt := "Change the background to solid bright blue, keep the main object"
      label := "Blue Backdrop", icon := "🎨" }
  | .sketch =>
    { prompt := "Convert to black and white pencil sketch style"
      label := "Pencil Sketch", icon := "✏️" }
  | .dramatic =>
    { prompt := "Add dramatic, cinematic lighting effect"
      label := "Dramatic Light", icon := "✨" }

/-- The character for a single decimal digit. -/
def digitChar (d : ℕ) : Char := Char.ofNat (48 + d)

/-- The four fractional digits produced by `toFixed(4)`: the value
`m` (the rounded number of ten-thousandths, reduced mod 10000) rendered
as exactly four decimal digits, zero-padded. -/
def pad4 (m : ℕ) : String :=
  String.mk [digitChar (m / 1000 % 10), digitChar (m / 100 % 10),
             digitChar (m / 10 % 10), digitChar (m % 10)]

/-- The rounding of `Number.prototype.toFixed(4)` on a non-negative
number, per the ECMAScript algorithm: the integer `n` minimizing the
distance of `n / 10^4` to the value, preferring the larger `n` at ties —
that is, `⌊q * 10^4 + 1/2⌋`. It is written on the numerator and
denominator so the kernel can evaluate it; the equality with the floor
form is proved in `toFixed4Round_eq_floor`. -/
def toFixed4Round (q : ℚ) : ℕ :=
  (Int.fdiv (2 * q.num * 10000 + (q.den : ℤ)) (2 * (q.den : ℤ))).toNat

/-- `Number.prototype.toFixed(4)` on a non-negative number: round to
ten-thousandths, then print with the last four digits after a decimal
point. -/
def toFixed4Nonneg (q : ℚ) : String :=
  let n : ℕ := toFixed4Round q
  toString (n / 10000) ++ "." ++ pad4 (n % 10000)

/-- `Number.prototype.toFixed(4)`: sign split (on the sign of the
numerator, i.e. of the value), then the non-negative case. -/
def toFixed4 (q : ℚ) : String :=
  if q.num < 0 then "-" ++ toFixed4Nonneg (-q) else toFixed4Nonneg q

/-- The bounding-box literal every prompt-synthesis site of `App.tsx`
interpolates: coordinates rendered with `toFixed(4)`, in the fixed order
`[y_min, x_min, y_max, x_max]`. -/
def bboxString (b : BoundingBox) : String :=
  "[" ++ toFixed4 b.y_min ++ ", " ++ toFixed4 b.x_min ++ ", " ++
    toFixed4 b.y_max ++ ", " ++ toFixed4 b.x_max ++ "]"

/-- Prompt synthesis of `handleQuickEdit` in `App.tsx`: the final prompt
built from the preset and the single selected object. -/
def quickEditPrompt (presetKey : PresetKey) (selectedObject : DetectedObject) : String :=
  let preset := EDIT_PRESETS presetKey
  let bbox := bboxString selectedObject.boundingBox
  if presetKey = .removeText then
    "Remove the selected text \x27" ++ selectedObject.label ++
      "\x27 located within the normalized bounding box (y_min, x_min, y_max, x_max) " ++
      bbox ++ ". Inpaint the area naturally to match the surroundings."
  else
    preset.prompt ++
      ". The main subject for this operation is the selected \x27" ++ selectedObject.label ++
      "\x27 located within the normalized bounding box (y_min, x_min, y_max, x_max) " ++
      bbox ++ ". Focus the effect on this object or the area around it as appropriate."

/-- Prompt synthesis of the `isolate` branch of `handleObjectAction` in
`App.tsx`, from the single selected object. -/
def isolatePrompt (obj : DetectedObject) : String :=
  "Isolate the " ++ obj.label ++
    " located within the bounding box (y_min, x_min, y_max, x_max) " ++
    bboxString obj.boundingBox ++ ". Make the background transparent."

/-- `Array.prototype.join` with separator `"\n"`, as used on the numbered
entry lists of the remove and translate prompts. -/
def joinNL : List String → String
  | [] => ""
  | [x] => x
  | x :: y :: xs => x ++ "\n" ++ joinNL (y :: xs)

/-- One numbered entry of the `remove` branch of `handleObjectAction`. -/
def removeEntry (n : ℕ) (obj : DetectedObject) : String :=
  toString n ++ ". The object \x27" ++ obj.label ++
    "\x27 located within bounding box " ++ bboxString obj.boundingBox

/-- Prompt synthesis of the `remove` branch of `handleObjectAction` in
`App.tsx`: header plus the selected objects as a 1-indexed numbered list. -/
def removePrompt (selectedObjects : List DetectedObject) : String :=
  let objectsToRemove :=
    joinNL (selectedObjects.mapIdx (fun i obj => removeEntry (i + 1) obj))
  "Remove the following objects from the image and inpaint their areas naturally to match the surroundings:\n" ++
    objectsToRemove

/-- One numbered entry of `handleTranslate` in `App.tsx`. -/
def translateEntry (n : ℕ) (obj : DetectedObject) : String :=
  toString n ++ ". Original Text: \"" ++ obj.label ++
    "\", Bounding Box (y_min, x_min, y_max, x_max): " ++ bboxString obj.boundingBox

/-- Prompt synthesis of `handleTranslate` in `App.tsx`: fixed
Chinese-to-Korean instruction, blank line, entry list, trailing newline. -/
def translatePrompt (selectedObjects : List DetectedObject) : String :=
  let objectsToTranslate :=
    joinNL (selectedObjects.mapIdx (fun i obj => translateEntry (i + 1) obj))
  "Translate the text in the following regions from Chinese to Korean. Then, replace the original text with the Korean translation. Ensure the new text fits naturally in the same location and matches the original style (font, color, size) as closely as possible.\n\nHere are the text regions to translate:\n" ++
    objectsToTranslate ++ "\n"

/-! ## Region equality and the selection set (`App.tsx`) -/

/-- `areObjectsEqual` from `App.tsx`, generic in the serializer:
`objA.label === objB.label && JSON.stringify(objA.boundingBox) ===
JSON.stringify(objB.boundingBox)`. `JSON.stringify` is an external runtime
builtin, so it is passed as a parameter `stringify`; on two records of the
declared `boundingBox` shape (same four fields, fixed key order, finite
numeric values) it is deterministic and injective. -/
def areObjectsEqualWith {T : Type} [DecidableEq T]
    (stringify : BoundingBox → T) (objA objB : DetectedObject) : Bool :=
  objA.label == objB.label &&
    decide (stringify objA.boundingBox = stringify objB.boundingBox)

/-- The information `JSON.stringify` serializes from a `boundingBox`
record of the declared shape: its four coordinate values in key order. -/
def bboxKey (b : BoundingBox) : ℚ × ℚ × ℚ × ℚ :=
  (b.x_min, b.y_min, b.x_max, b.y_max)

/-- `areObjectsEqual` from `App.tsx`, instantiated with the canonical
serialized content of a bounding-box record. -/
def areObjectsEqual : DetectedObject → DetectedObject → Bool :=
  areObjectsEqualWith bboxKey

/-- The functional updater of `handleObjectSelect` in `App.tsx`: toggle a
region in the selection set. If an equal region is present, filter it out;
otherwise append the region at the end. -/
def handleObjectSelect (prevSelected : List DetectedObject)
    (object : DetectedObject) : List DetectedObject :=
  if prevSelected.any (fun obj => areObjectsEqual obj object) then
    prevSelected.filter (fun obj => !areObjectsEqual obj object)
  else
    prevSelected ++ [object]

/-! ## Gemini service adapters (`services/geminiService.ts`)

The backend response shapes follow the `@google/genai` response structure
the source destructures: `response.candidates[i].content.parts[j].inlineData.data`.
A transport-level failure (the awaited call rejecting) is `Except.error ()`
in the oracle argument. -/

/-- One response part: `inlineData` is absent on text parts, and its
`data` field may be absent. -/
structure ResponsePart where
  inlineData : Option (Option String)
deriving DecidableEq, Repr

/-- `candidate.content` of a backend response. -/
structure ResponseContent where
  parts : List ResponsePart
deriving DecidableEq, Repr

/-- One candidate of a backend response. -/
structure ResponseCandidate where
  content : ResponseContent
deriving DecidableEq, Repr

/-- A resolved backend generation response; `candidates` may be absent. -/
structure GenResponse where
  candidates : Option (List ResponseCandidate)
deriving DecidableEq, Repr

/-- The part scan of `editImage`/`generateImageFromPrompt`: the first part
with `part.inlineData && part.inlineData.data` truthy (an empty string is
falsy in JavaScript, so empty `data` is skipped). -/
def findInlineData : List ResponsePart → Option String
  | [] => none
  | p :: rest =>
    match p.inlineData with
    | some (some s) => if s.isEmpty then findInlineData rest else some s
    | some none => findInlineData rest
    | none => findInlineData rest

/-- The try-block body of `editImage` on a resolved response: throw when
there are no candidates, return the first inline image data of the first
candidate, throw when none is found. -/
def editImageInner (response : GenResponse) : Except String String :=
  match response.candidates with
  | none => .error "API returned no candidates."
  | some [] => .error "API returned no candidates."
  | some (candidate :: _) =>
    match findInlineData candidate.content.parts with
    | some data => .ok data
    | none => .error "No image data found in the API response."

/-- The user-facing message `editImage` re-throws for every failure. -/
def editImageFailMsg : String :=
  "Failed to edit image. The model may not be able to fulfill this request. Please try a different prompt or image."

/-- `editImage` from `services/geminiService.ts` as a function of the
backend call outcome: any rejection of the call itself and any throw of
the try block are caught and replaced by the one user-facing message. -/
def editImage (resp : Except Unit GenResponse) : Except String String :=
  match resp with
  | .error _ => .error editImageFailMsg
  | .ok response =>
    match editImageInner response with
    | .ok data => .ok data
    | .error _ => .error editImageFailMsg

/-- The try-block body of `generateImageFromPrompt` on a resolved response. -/
def generateImageInner (response : GenResponse) : Except String String :=
  match response.candidates with
  | none => .error "API returned no candidates for image generation."
  | some [] => .error "API returned no candidates for image generation."
  | some (candidate :: _) =>
    match findInlineData candidate.content.parts with
    | some data => .ok data
    | none => .error "No image data found in the generation response."

/-- The user-facing message `generateImageFromPrompt` re-throws. -/
def generateImageFailMsg : String :=
  "Failed to generate image. The model may not be able to fulfill this request."

/-- `generateImageFromPrompt` from `services/geminiService.ts` as a
function of the backend call outcome. -/
def generateImageFromPrompt (resp : Except Unit GenResponse) : Except String String :=
  match resp with
  | .error _ => .error generateImageFailMsg
  | .ok response =>
    match generateImageInner response with
    | .ok data => .ok data
    | .error _ => .error generateImageFailMsg

/-! ## Detection adapters and their JSON handling -/

/-- The JavaScript values relevant to the detection result handling:
`jundefined` is the `undefined` produced by reading an absent property (never
produced by `JSON.parse` itself). -/
inductive JsonVal where
  | jundefined
  | jnull
  | jbool (b : Bool)
  | jnum (q : ℚ)
  | jstr (s : String)
  | jarr (elems : List JsonVal)
  | jobj (fields : List (String × JsonVal))

/-- JavaScript truthiness of a parsed value. -/
def jsTruthy : JsonVal → Bool
  | .jundefined => false
  | .jnull => false
  | .jbool b => b
  | .jnum q => !(q == 0)
  | .jstr s => !s.isEmpty
  | .jarr _ => true
  | .jobj _ => true

/-- JavaScript property read `v.key`: throws a `TypeError` on `null` and
`undefined`, yields `undefined` for an absent property or a non-object. -/
def jsGetMember (v : JsonVal) (key : String) : Except Unit JsonVal :=
  match v with
  | .jundefined => .error ()
  | .jnull => .error ()
  | .jobj fields => .ok ((fields.lookup key).getD .jundefined)
  | _ => .ok .jundefined

/-- `String.prototype.trim`: strip leading and trailing whitespace. -/
def jsTrim (s : String) : String :=
  String.mk ((((s.data.dropWhile Char.isWhitespace).reverse.dropWhile
    Char.isWhitespace).reverse))

/-- The try-block tail shared by `detectObjects` and `detectWatermarkText`
once the response has resolved with body `text`: trim it, treat an empty
body as zero detections, otherwise `JSON.parse` it (`parse` is the
`JSON.parse` oracle; `none` models a `SyntaxError` throw) and evaluate
`result.objects || []`. Any throw propagates as `Except.error ()`. -/
def detectBodyRun (parse : String → Option JsonVal) (text : String) :
    Except Unit JsonVal :=
  let jsonText := jsTrim text
  if jsonText.isEmpty then .ok (.jarr [])
  else
    match parse jsonText with
    | none => .error ()
    | some result =>
      match jsGetMember result "objects" with
      | .error _ => .error ()
      | .ok objs => .ok (if jsTruthy objs then objs else .jarr [])

/-- The user-facing message `detectObjects` re-throws for every failure. -/
def detectObjectsFailMsg : String :=
  "Failed to detect objects in the image. The model may not have been able to identify any distinct items."

/-- `detectObjects` from `services/geminiService.ts` as a function of the
`JSON.parse` oracle and the backend call outcome (`Except.error ()` is a
transport-level rejection). Every throw inside the try block is caught and
replaced by the one user-facing message. -/
def detectObjects (parse : String → Option JsonVal)
    (resp : Except Unit String) : Except String JsonVal :=
  match resp with
  | .error _ => .error detectObjectsFailMsg
  | .ok text =>
    match detectBodyRun parse text with
    | .ok v => .ok v
    | .error _ => .error detectObjectsFailMsg

/-- The user-facing message `detectWatermarkText` re-throws. -/
def detectWatermarkTextFailMsg : String :=
  "Failed to detect watermark text in the image. The model may not have been able to identify any."

/-- `detectWatermarkText` from `services/geminiService.ts`: identical
response handling to `detectObjects`, with its own failure message. -/
def detectWatermarkText (parse : String → Option JsonVal)
    (resp : Except Unit String) : Except String JsonVal :=
  match resp with
  | .error _ => .error detectWatermarkTextFailMsg
  | .ok text =>
    match detectBodyRun parse text with
    | .ok v => .ok v
    | .error _ => .error detectWatermarkTextFailMsg

/-! ## The coordinate mapper (`handleResize` in `ImagePreview`, `App.tsx`) -/

/-- The `renderInfo` record computed by `handleResize`. -/
structure RenderInfo where
  width : ℚ
  height : ℚ
  top : ℚ
  left : ℚ
deriving DecidableEq, Repr

/-- `handleResize` from `ImagePreview` in `App.tsx`: contain-fit geometry
of the image inside its container. Returns `none` (no geometry update)
when a natural dimension is zero. -/
def handleResize (clientWidth clientHeight naturalWidth naturalHeight : ℚ) :
    Option RenderInfo :=
  if naturalWidth = 0 ∨ naturalHeight = 0 then none
  else
    let naturalRatio := naturalWidth / naturalHeight
    let clientRatio := clientWidth / clientHeight
    if naturalRatio > clientRatio then
      some { width := clientWidth
             height := clientWidth / naturalRatio
             top := (clientHeight - clientWidth / naturalRatio) / 2
             left := 0 }
    else
      some { width := clientHeight * naturalRatio
             height := clientHeight
             top := 0
             left := (clientWidth - clientHeight * naturalRatio) / 2 }

/-! ## The generation request orchestrator (`App` component state, `App.tsx`)

The component state and its handlers form a state machine. JavaScript's
event loop runs each handler atomically between its `await` suspension
points, and the UI's disabled-while-loading discipline means a new handler
only starts from a quiescent state; an async handler therefore contributes
its pending-entry state (the state published when it suspends on the
backend call) and its final state. Each backend call's outcome is an
oracle argument of the event. -/

/-- The `useState` cells of the `App` component that the core handlers
read or write. -/
structure AppState where
  image : Option ImageFile
  prompt : String
  resultImage : Option String
  isLoading : Bool
  error : Option String
  activePreset : Option PresetKey
  detectedObjects : List DetectedObject
  selectedObjects : List DetectedObject
  backgroundImage : Option ImageFile
  backgroundPrompt : String
  generatedBackground : Option String
  isGeneratingBg : Bool
deriving DecidableEq, Repr

/-- The initial component state. -/
def initState : AppState :=
  { image := none
    prompt := ""
    resultImage := none
    isLoading := false
    error := none
    activePreset := none
    detectedObjects := []
    selectedObjects := []
    backgroundImage := none
    backgroundPrompt := "A photorealistic image of a beautiful beach at sunset"
    generatedBackground := none
    isGeneratingBg := false }

/-- `promptOverride || prompt`: the prompt `handleGenerate` actually uses
(an absent or empty override falls back to the prompt state). -/
def effectivePrompt (s : AppState) (promptOverride : Option String) : String :=
  match promptOverride with
  | some p => if p.isEmpty then s.prompt else p
  | none => s.prompt

/-- The outcome of one `handleGenerate` call: the state published on
entering the loading state (`none` when the precondition guard returned
early), the final state, and whether the backend collaborator was invoked. -/
structure GenStep where
  pending : Option AppState
  final : AppState
  backendCalled : Bool
deriving DecidableEq, Repr

/-- The precondition message of `handleGenerate`. -/
def generateGuardMsg : String := "Please upload an image and provide a prompt."

/-- `handleGenerate` from `App.tsx` as a function of the backend edit
call's outcome. The guard returns before the try block, so it neither
touches `isLoading` nor clears the previous result; the main path sets
loading and clears result and error, awaits the backend, stores the
prefixed result or the caught message, and the finally block resets
loading and the active preset. -/
def handleGenerate (s : AppState) (promptOverride : Option String)
    (backend : Except Unit GenResponse) : GenStep :=
  let currentPrompt := effectivePrompt s promptOverride
  if s.image.isNone || currentPrompt.isEmpty then
    { pending := none
      final := { s with error := some generateGuardMsg }
      backendCalled := false }
  else
    let sPending : AppState :=
      { s with isLoading := true, error := none, resultImage := none }
    let sAfter : AppState :=
      match editImage backend with
      | .ok edited =>
        { sPending with resultImage := some ("data:image/png;base64," ++ edited) }
      | .error msg => { sPending with error := some msg }
    { pending := some sPending
      final := { sAfter with isLoading := false, activePreset := none }
      backendCalled := true }

/-- `handleQuickEdit` from `App.tsx`: guards, prompt synthesis, marking
the active preset, then `handleGenerate` with the synthesized prompt. -/
def handleQuickEdit (s : AppState) (presetKey : PresetKey)
    (backend : Except Unit GenResponse) : GenStep :=
  if s.image.isNone then
    { pending := none
      final := { s with error := some "Please upload an image first." }
      backendCalled := false }
  else
    match s.selectedObjects with
    | [selectedObject] =>
      let finalPrompt := quickEditPrompt presetKey selectedObject
      handleGenerate { s with activePreset := some presetKey }
        (some finalPrompt) backend
    | _ =>
      { pending := none
        final := { s with error := some "Please select exactly one object for this action." }
        backendCalled := false }

/-- The two actions of `handleObjectAction` in `App.tsx`. -/
inductive ObjectAction where
  | isolate
  | remove
deriving DecidableEq, Repr

/-- `handleObjectAction` from `App.tsx`: early return on an empty
selection, isolate requires a single selection, then `handleGenerate`
with the synthesized action prompt. -/
def handleObjectAction (s : AppState) (action : ObjectAction)
    (backend : Except Unit GenResponse) : GenStep :=
  match s.selectedObjects with
  | [] => { pending := none, final := s, backendCalled := false }
  | first :: rest =>
    match action with
    | .isolate =>
      match rest with
      | [] => handleGenerate s (some (isolatePrompt first)) backend
      | _ :: _ =>
        { pending := none
          final := { s with error := some "Please select only one object to isolate." }
          backendCalled := false }
    | .remove =>
      handleGenerate s (some (removePrompt (first :: rest))) backend

/-- `handleTranslate` from `App.tsx`: early return on an empty selection,
then `handleGenerate` with the translation prompt. -/
def handleTranslate (s : AppState) (backend : Except Unit GenResponse) : GenStep :=
  match s.selectedObjects with
  | [] => { pending := none, final := s, backendCalled := false }
  | first :: rest =>
    handleGenerate s (some (translatePrompt (first :: rest))) backend

/-- The events of the component's handler machine. Async backend and file
outcomes are oracle arguments; a detection event carries the typed outcome
of the detection service call (its result list, or the thrown message). -/
inductive Event where
  | fileChange (res : Except Unit ImageFile)
  | clearImage
  | setPrompt (p : String)
  | generate (promptOverride : Option String) (backend : Except Unit GenResponse)
  | quickEdit (presetKey : PresetKey) (backend : Except Unit GenResponse)
  | objectAction (action : ObjectAction) (backend : Except Unit GenResponse)
  | translate (backend : Except Unit GenResponse)
  | detectObjectsEv (res : Except String (List DetectedObject))
  | detectTextEv (res : Except String (List DetectedObject))
  | objectSelect (object : DetectedObject)
  | setBackgroundPrompt (p : String)
  | generateBackground (backend : Except Unit GenResponse)

/-- The shared body of `handleDetectObjects` and `handleDetectText` in
`App.tsx`: guard, pending entry clearing result, error and both region
lists, then storing the detections or the caught message. -/
def detectStep (s : AppState) (res : Except String (List DetectedObject)) :
    List AppState × AppState :=
  if s.image.isNone then
    ([], { s with error := some "Please upload an image first." })
  else
    let sPending : AppState :=
      { s with isLoading := true, error := none, resultImage := none
               selectedObjects := [], detectedObjects := [] }
    let sAfter : AppState :=
      match res with
      | .ok objects => { sPending with detectedObjects := objects }
      | .error msg => { sPending with error := some msg }
    ([sPending], { sAfter with isLoading := false })

/-- `handleGenerateBackground` from `App.tsx`: guard on an empty
background prompt, pending entry setting the background-loading flag and
clearing the error (but not the previously generated background), then
storing the prefixed result (clearing the uploaded background) or the
caught message; the finally block resets the background-loading flag. -/
def generateBackgroundStep (s : AppState) (backend : Except Unit GenResponse) :
    List AppState × AppState :=
  if s.backgroundPrompt.isEmpty then
    ([], { s with error := some "Please enter a prompt for the background." })
  else
    let sPending : AppState := { s with isGeneratingBg := true, error := none }
    let sAfter : AppState :=
      match generateImageFromPrompt backend with
      | .ok generated =>
        { sPending with
            generatedBackground := some ("data:image/png;base64," ++ generated)
            backgroundImage := none }
      | .error msg => { sPending with error := some msg }
    ([sPending], { sAfter with isGeneratingBg := false })

/-- One machine step: the pending-entry states the handler publishes at
its suspension points, and the final state it leaves behind. -/
def stepM (s : AppState) : Event → List AppState × AppState
  | .fileChange (.ok file) =>
    ([], { s with image := some file, resultImage := none, error := none
                  detectedObjects := [], selectedObjects := [] })
  | .fileChange (.error _) =>
    ([], { s with error := some "Failed to read the image file." })
  | .clearImage =>
    ([], { s with image := none, resultImage := none, error := none
                  detectedObjects := [], selectedObjects := [] })
  | .setPrompt p => ([], { s with prompt := p })
  | .generate promptOverride backend =>
    let g := handleGenerate s promptOverride backend
    (g.pending.toList, g.final)
  | .quickEdit presetKey backend =>
    let g := handleQuickEdit s presetKey backend
    (g.pending.toList, g.final)
  | .objectAction action backend =>
    let g := handleObjectAction s action backend
    (g.pending.toList, g.final)
  | .translate backend =>
    let g := handleTranslate s backend
    (g.pending.toList, g.final)
  | .detectObjectsEv res => detectStep s res
  | .detectTextEv res => detectStep s res
  | .objectSelect object =>
    ([], { s with selectedObjects := handleObjectSelect s.selectedObjects object })
  | .setBackgroundPrompt p => ([], { s with backgroundPrompt := p })
  | .generateBackground backend => generateBackgroundStep s backend

/-- All states the component publishes along a run: the starting state,
then for each event its pending-entry states followed by the states of
the rest of the run from its final state. -/
def visited : AppState → List Event → List AppState
  | s, [] => [s]
  | s, e :: es =>
    let step := stepM s e
    s :: (step.1 ++ visited step.2 es)

/-- The loading-exclusion property of one published state: the main
loading flag excludes both the stored result and the stored error, and
the background loading flag excludes the stored error. -/
def LoadingExclusive (t : AppState) : Prop :=
  (t.isLoading = true → t.resultImage = none ∧ t.error = none) ∧
  (t.isGeneratingBg = true → t.error = none)

/-! ## Sample values used by witness statements -/

/-- A sample detected region. -/
def rgA : DetectedObject :=
  { label := "cat"
    boundingBox := ⟨mkRat 1 10, mkRat 2 10, mkRat 3 10, mkRat 4 10⟩ }

/-- A second sample detected region, structurally different from `rgA`. -/
def rgB : DetectedObject :=
  { label := "dog"
    boundingBox := ⟨mkRat 1 2, mkRat 1 2, mkRat 3 4, mkRat 3 4⟩ }

/-- A sample uploaded image. -/
def imgA : ImageFile := { src := "data:image/png;base64,AAA", fileType := "image/png" }

/-- A backend response resolving with one inline image part. -/
def okResp (d : String) : Except Unit GenResponse :=
  .ok { candidates := some [{ content := { parts := [{ inlineData := some (some d) }] } }] }

/-- A backend response resolving with an empty candidate list. -/
def noCandResp : GenResponse := { candidates := some [] }

/-- A backend response resolving with one candidate holding a single
text part (no inline image data). -/
def noImageResp : GenResponse :=
  { candidates := some [{ content := { parts := [{ inlineData := none }] } }] }

/-- A component state with an image uploaded and a prompt entered. -/
def sReady : AppState := { initState with image := some imgA, prompt := "p" }

/-- A run of generation operations: a successful main edit, a precondition
failure of the next attempt, and two background generations in a row. -/
def c6Trace : List Event :=
  [.fileChange (.ok imgA), .setPrompt "p", .generate none (okResp "D1"),
   .setPrompt "", .generate none (okResp "D2"),
   .generateBackground (okResp "B1"), .generateBackground (okResp "B2")]

/-! ## Helper lemmas -/

/-- The serialized content of a bounding-box record determines the record. -/
theorem bboxKey_injective : Function.Injective bboxKey := by
  intro b1 b2 h
  cases b1
  cases b2
  simpa [bboxKey, Prod.ext_iff] using h

/-- `areObjectsEqual` holds exactly on equal labels and componentwise
equal bounding boxes. -/
theorem areObjectsEqual_iff (a b : DetectedObject) :
    areObjectsEqual a b = true ↔
      (a.label = b.label ∧ a.boundingBox.x_min = b.boundingBox.x_min ∧
        a.boundingBox.y_min = b.boundingBox.y_min ∧
        a.boundingBox.x_max = b.boundingBox.x_max ∧
        a.boundingBox.y_max = b.boundingBox.y_max) := by
  simp [areObjectsEqual, areObjectsEqualWith, bboxKey, Prod.ext_iff]

/-- `areObjectsEqual` is reflexive. -/
theorem areObjectsEqual_refl (a : DetectedObject) : areObjectsEqual a a = true := by
  simp [areObjectsEqual_iff]

/-! ## C4 — region equality -/

/-- C4: the region-equality predicate used by selection holds iff the
labels are equal and the four bounding-box coordinates are each exactly
equal; it depends on nothing else (any injective serializer yields the
same predicate); and it is reflexive, symmetric and transitive. -/
theorem C4_areObjectsEqual_structural :
    (∀ a b : DetectedObject, areObjectsEqual a b = true ↔
      (a.label = b.label ∧ a.boundingBox.x_min = b.boundingBox.x_min ∧
        a.boundingBox.y_min = b.boundingBox.y_min ∧
        a.boundingBox.x_max = b.boundingBox.x_max ∧
        a.boundingBox.y_max = b.boundingBox.y_max))
    ∧ (∀ a, areObjectsEqual a a = true)
    ∧ (∀ a b, areObjectsEqual a b = areObjectsEqual b a)
    ∧ (∀ a b c, areObjectsEqual a b = true → areObjectsEqual b c = true →
        areObjectsEqual a c = true)
    ∧ (∀ (T : Type) [DecidableEq T] (stringify : BoundingBox → T),
        Function.Injective stringify →
        ∀ a b, areObjectsEqualWith stringify a b = areObjectsEqual a b) := by
  refine ⟨areObjectsEqual_iff, areObjectsEqual_refl, ?_, ?_, ?_⟩
  · intro a b
    rw [Bool.eq_iff_iff, areObjectsEqual_iff, areObjectsEqual_iff]
    constructor <;> rintro ⟨h1, h2, h3, h4, h5⟩ <;>
      exact ⟨h1.symm, h2.symm, h3.symm, h4.symm, h5.symm⟩
  · intro a b c hab hbc
    rw [areObjectsEqual_iff] at hab hbc ⊢
    obtain ⟨h1, h2, h3, h4, h5⟩ := hab
    obtain ⟨g1, g2, g3, g4, g5⟩ := hbc
    exact ⟨h1.trans g1, h2.trans g2, h3.trans g3, h4.trans g4, h5.trans g5⟩
  · intro T instT stringify hinj a b
    simp only [areObjectsEqualWith, areObjectsEqual]
    rw [Bool.eq_iff_iff]
    simp only [Bool.and_eq_true, beq_iff_eq, decide_eq_true_eq]
    constructor
    · rintro ⟨hl, hs⟩
      exact ⟨hl, by rw [hinj hs]⟩
    · rintro ⟨hl, hs⟩
      exact ⟨hl, by rw [bboxKey_injective hs]⟩

/-- Witness for C4 at concrete regions: reflexivity at `rgA`,
transitivity along `rgA`, and serializer-independence instantiated with
the injective `bboxKey`. -/
theorem C4_witness :
    areObjectsEqual rgA rgA = true ∧
    areObjectsEqual rgA rgA = true ∧
    areObjectsEqualWith bboxKey rgA rgB = areObjectsEqual rgA rgB :=
  ⟨C4_areObjectsEqual_structural.2.1 rgA,
   C4_areObjectsEqual_structural.2.2.2.1 rgA rgA rgA (by decide) (by decide),
   C4_areObjectsEqual_structural.2.2.2.2 (ℚ × ℚ × ℚ × ℚ) bboxKey
     bboxKey_injective rgA rgB⟩

/-! ## C5 — selection toggle -/

/-- C5: toggling a region removes the present structurally-equal region —
keeping every other element in order — and otherwise appends the region
at the end; toggling the same region twice starting from the empty
selection returns the empty selection. -/
theorem C5_handleObjectSelect_toggle :
    (∀ (s1 s2 : List DetectedObject) (x r : DetectedObject),
      areObjectsEqual x r = true →
      (∀ y ∈ s1, areObjectsEqual y r = false) →
      (∀ y ∈ s2, areObjectsEqual y r = false) →
      handleObjectSelect (s1 ++ x :: s2) r = s1 ++ s2)
    ∧ (∀ (s : List DetectedObject) (r : DetectedObject),
      (∀ y ∈ s, areObjectsEqual y r = false) →
      handleObjectSelect s r = s ++ [r])
    ∧ (∀ r : DetectedObject, handleObjectSelect (handleObjectSelect [] r) r = []) := by
  refine ⟨?_, ?_, ?_⟩
  · intro s1 s2 x r hx h1 h2
    have hany : (s1 ++ x :: s2).any (fun obj => areObjectsEqual obj r) = true := by
      simp only [List.any_append, List.any_cons, hx, Bool.true_and, Bool.or_true,
        Bool.true_or]
    rw [handleObjectSelect, if_pos hany, List.filter_append, List.filter_cons_of_neg,
      List.filter_eq_self.mpr, List.filter_eq_self.mpr]
    · intro y hy
      simp [h2 y hy]
    · intro y hy
      simp [h1 y hy]
    · simp [hx]
  · intro s r hs
    have hany : s.any (fun obj => areObjectsEqual obj r) = false := by
      simp only [List.any_eq_false]
      intro y hy
      simp [hs y hy]
    rw [handleObjectSelect, if_neg (by simp [hany])]
  · intro r
    have h1 : handleObjectSelect [] r = [r] := by
      rw [handleObjectSelect]
      simp
    rw [h1, handleObjectSelect]
    rw [if_pos (by simp [areObjectsEqual_refl r])]
    simp [areObjectsEqual_refl r]

/-- Witness for C5: toggling `rgA` out of `[rgB, rgA]` leaves `[rgB]`,
and the double toggle from the empty selection at `rgA` is empty. -/
theorem C5_witness :
    handleObjectSelect [rgB, rgA] rgA = [rgB] ∧
    handleObjectSelect (handleObjectSelect [] rgA) rgA = [] := by
  refine ⟨?_, C5_handleObjectSelect_toggle.2.2 rgA⟩
  have h := C5_handleObjectSelect_toggle.1 [rgB] [] rgA rgA (by decide)
    (by decide) (by decide)
  simpa using h

/-! ## C2 — generation preconditions -/

/-- C2: with no active image or an empty effective prompt, the generation
start operation never invokes the backend collaborator, never enters the
loading state, and immediately stores the precondition message. -/
theorem C2_generate_guard (s : AppState) (promptOverride : Option String)
    (backend : Except Unit GenResponse)
    (h : s.image = none ∨ effectivePrompt s promptOverride = "") :
    (handleGenerate s promptOverride backend).backendCalled = false ∧
    (handleGenerate s promptOverride backend).pending = none ∧
    (handleGenerate s promptOverride backend).final.error = some generateGuardMsg ∧
    (handleGenerate s promptOverride backend).final.isLoading = s.isLoading := by
  have hguard : (s.image.isNone || (effectivePrompt s promptOverride).isEmpty) = true := by
    rcases h with h | h
    · simp [h]
    · rw [h]
      simp [String.isEmpty]
  rw [handleGenerate]
  simp [hguard]

/-- Witness for C2 at the initial state (no image, empty prompt): the
guard fires, the backend is not called, loading is untouched. -/
theorem C2_witness :
    (handleGenerate initState none (okResp "D")).backendCalled = false ∧
    (handleGenerate initState none (okResp "D")).pending = none ∧
    (handleGenerate initState none (okResp "D")).final.error = some generateGuardMsg ∧
    (handleGenerate initState none (okResp "D")).final.isLoading = initState.isLoading :=
  C2_generate_guard initState none (okResp "D") (Or.inl rfl)

/-! ## C7 — empty backend payloads fail -/

/-- C7: a backend edit response that resolves but carries no candidates,
or whose candidate parts carry no inline image data, makes `editImage`
throw its failure message, and makes a guard-passing generation attempt
terminate with the error stored and no result image — never in the
succeeded state. -/
theorem C7_no_image_payload_fails (resp : GenResponse)
    (hresp : resp.candidates = none ∨ resp.candidates = some [] ∨
      ∀ c ∈ resp.candidates.getD [], findInlineData c.content.parts = none) :
    editImage (.ok resp) = .error editImageFailMsg ∧
    ∀ (s : AppState) (promptOverride : Option String),
      s.image.isNone = false → (effectivePrompt s promptOverride).isEmpty = false →
      (handleGenerate s promptOverride (.ok resp)).final.error = some editImageFailMsg ∧
      (handleGenerate s promptOverride (.ok resp)).final.resultImage = none ∧
      (handleGenerate s promptOverride (.ok resp)).final.isLoading = false := by
  have hedit : editImage (.ok resp) = .error editImageFailMsg := by
    rcases hresp with h | h | h
    · simp [editImage, editImageInner, h]
    · simp [editImage, editImageInner, h]
    · rcases hc : resp.candidates with _ | (_ | ⟨c, rest⟩)
      · simp [editImage, editImageInner, hc]
      · simp [editImage, editImageInner, hc]
      · have hfirst : findInlineData c.content.parts = none := by
          apply h
          rw [hc]
          exact List.mem_cons_self c rest
        simp [editImage, editImageInner, hc, hfirst]
  refine ⟨hedit, ?_⟩
  intro s promptOverride himg hprompt
  rw [handleGenerate]
  simp [himg, hprompt, hedit]

/-- Witness for C7: the empty-candidate-list response fails `editImage`
and drives a ready state (image and prompt present) to the failed state. -/
theorem C7_witness :
    editImage (.ok noCandResp) = .error editImageFailMsg ∧
    (handleGenerate sReady none (.ok noCandResp)).final.error = some editImageFailMsg ∧
    (handleGenerate sReady none (.ok noCandResp)).final.resultImage = none :=
  have h := C7_no_image_payload_fails noCandResp (Or.inr (Or.inl rfl))
  ⟨h.1, (h.2 sReady none rfl rfl).1, (h.2 sReady none rfl rfl).2.1⟩

/-! ## C8 — contain-fit geometry -/

/-- C8: for positive container and natural dimensions, the computed render
geometry exists, fits inside the container, preserves the natural aspect
ratio exactly (the rational model of the floating-point computation), and
is centered: each offset is half the free space on its axis (zero on the
filled axis) and non-negative. -/
theorem C8_handleResize_contain (cw ch nw nh : ℚ)
    (hcw : 0 < cw) (hch : 0 < ch) (hnw : 0 < nw) (hnh : 0 < nh) :
    ∃ r : RenderInfo, handleResize cw ch nw nh = some r ∧
      r.width ≤ cw ∧ r.height ≤ ch ∧ 0 < r.width ∧ 0 < r.height ∧
      r.width / r.height = nw / nh ∧
      r.left = (cw - r.width) / 2 ∧ r.top = (ch - r.height) / 2 ∧
      0 ≤ r.left ∧ 0 ≤ r.top := by
  have hnw0 : nw ≠ 0 := ne_of_gt hnw
  have hnh0 : nh ≠ 0 := ne_of_gt hnh
  have hcw0 : cw ≠ 0 := ne_of_gt hcw
  have hch0 : ch ≠ 0 := ne_of_gt hch
  have hratio : 0 < nw / nh := div_pos hnw hnh
  rw [handleResize, if_neg (by push_neg; exact ⟨hnw0, hnh0⟩)]
  by_cases hgt : nw / nh > cw / ch
  · rw [if_pos hgt]
    have hkey : cw * nh < nw * ch := (div_lt_div_iff₀ hch hnh).mp hgt
    have hheight : cw / (nw / nh) = cw * nh / nw := by
      field_simp
    have hhle : cw / (nw / nh) ≤ ch := by
      rw [hheight, div_le_iff₀ hnw]
      nlinarith
    refine ⟨_, rfl, le_refl cw, hhle, hcw, div_pos hcw hratio, ?_, ?_, rfl, ?_, ?_⟩
    · rw [div_div_cancel₀]
      exact hcw0
    · simp [sub_self]
    · simp
    · have := sub_nonneg.mpr hhle
      positivity
  · rw [if_neg hgt]
    push_neg at hgt
    have hkey : nw * ch ≤ cw * nh := (div_le_div_iff₀ hnh hch).mp hgt
    have hwidth : ch * (nw / nh) = ch * nw / nh := by
      ring
    have hwle : ch * (nw / nh) ≤ cw := by
      rw [hwidth, div_le_iff₀ hnh]
      nlinarith
    refine ⟨_, rfl, hwle, le_refl ch, mul_pos hch hratio, hch, ?_, ?_, ?_, ?_, ?_⟩
    · field_simp
      ring
    · rfl
    · simp [sub_self]
    · have := sub_nonneg.mpr hwle
      positivity
    · simp

/-- Witness for C8 at a wide container (2 by 1) and a square image: the
geometry is the centered unit square. -/
theorem C8_witness :
    ∃ r : RenderInfo, handleResize 2 1 1 1 = some r ∧
      r.width ≤ 2 ∧ r.height ≤ 1 ∧ 0 < r.width ∧ 0 < r.height ∧
      r.width / r.height = 1 / 1 ∧
      r.left = (2 - r.width) / 2 ∧ r.top = (1 - r.height) / 2 ∧
      0 ≤ r.left ∧ 0 ≤ r.top :=
  C8_handleResize_contain 2 1 1 1 (by norm_num) (by norm_num) (by norm_num)
    (by norm_num)

/-! ## C1 helpers — toFixed(4) shape and bbox placement -/

/-- The kernel-computable rounding agrees with the ECMAScript
specification of `toFixed(4)`: round half up at 4 decimal places. -/
theorem toFixed4Round_eq_floor (q : ℚ) (hq : 0 ≤ q) :
    (toFixed4Round q : ℤ) = ⌊q * 10000 + 1/2⌋ := by
  have hnum : 0 ≤ q.num := Rat.num_nonneg.mpr hq
  have hden0 : ((q.den : ℚ)) ≠ 0 := by
    exact_mod_cast q.den_nz
  have hnum' : (q.num : ℚ) = q * (q.den : ℚ) :=
    (div_eq_iff hden0).mp (Rat.num_div_den q)
  have hD : ((2 * q.den : ℕ) : ℚ) ≠ 0 := by
    have h2 : (2 * q.den) ≠ 0 := Nat.mul_ne_zero (by norm_num) q.den_nz
    exact_mod_cast h2
  have hexp : q * 10000 + 1/2 =
      ((2 * q.num * 10000 + (q.den : ℤ) : ℤ) : ℚ) / ((2 * q.den : ℕ) : ℚ) := by
    rw [eq_div_iff hD]
    push_cast
    rw [hnum']
    ring
  have hfloor : ⌊q * 10000 + 1/2⌋ =
      (2 * q.num * 10000 + (q.den : ℤ)) / ((2 * q.den : ℕ) : ℤ) := by
    rw [hexp, Rat.floor_intCast_div_natCast]
  have hfd : Int.fdiv (2 * q.num * 10000 + (q.den : ℤ)) (2 * (q.den : ℤ)) =
      (2 * q.num * 10000 + (q.den : ℤ)) / (2 * (q.den : ℤ)) :=
    Int.fdiv_eq_ediv _ (by positivity)
  have hpos : 0 ≤ Int.fdiv (2 * q.num * 10000 + (q.den : ℤ)) (2 * (q.den : ℤ)) := by
    rw [hfd]
    apply Int.ediv_nonneg
    · positivity
    · positivity
  rw [toFixed4Round, Int.toNat_of_nonneg hpos, hfd, hfloor]
  push_cast
  ring_nf

/-- `pad4` always renders exactly four characters. -/
theorem pad4_length (m : ℕ) : (pad4 m).length = 4 := rfl

/-- A digit character is a digit for any value below ten. -/
theorem digitChar_isDigit (d : ℕ) (h : d < 10) : (digitChar d).isDigit = true := by
  interval_cases d <;> decide

/-- Every character rendered by `pad4` is a decimal digit. -/
theorem pad4_isDigit (m : ℕ) : ∀ c ∈ (pad4 m).data, c.isDigit = true := by
  intro c hc
  simp only [pad4, String.mk, List.mem_cons, List.not_mem_nil, or_false] at hc
  rcases hc with h | h | h | h <;> rw [h] <;>
    exact digitChar_isDigit _ (Nat.mod_lt _ (by norm_num))

/-- The rounded value of a number in `[0, 1]` is at most `10000`. -/
theorem toFixed4Round_le (q : ℚ) (h0 : 0 ≤ q) (h1 : q ≤ 1) :
    toFixed4Round q ≤ 10000 := by
  have hcast : (toFixed4Round q : ℤ) = ⌊q * 10000 + 1/2⌋ := toFixed4Round_eq_floor q h0
  have hle : q * 10000 + 1/2 ≤ (10000 : ℚ) + 1/2 := by nlinarith
  have hfl : ⌊q * 10000 + 1/2⌋ ≤ ⌊(10000 : ℚ) + 1/2⌋ := Int.floor_le_floor hle
  have hval : ⌊(10000 : ℚ) + 1/2⌋ = 10000 := by
    norm_num
  omega

/-- Every member of a joined entry list occurs inside the joined string. -/
theorem joinNL_decomp (entries : List String) (e : String) (he : e ∈ entries) :
    ∃ p q', joinNL entries = p ++ e ++ q' := by
  induction entries with
  | nil => cases he
  | cons x xs ih =>
    cases xs with
    | nil =>
      rcases List.mem_singleton.mp he with rfl
      exact ⟨"", "", by simp [joinNL]⟩
    | cons y ys =>
      rcases List.mem_cons.mp he with rfl | hmem
      · exact ⟨"", "\n" ++ joinNL (y :: ys), by simp [joinNL, String.append_assoc]⟩
      · obtain ⟨p, q', hpq⟩ := ih hmem
        exact ⟨x ++ "\n" ++ p, q', by simp [joinNL, hpq, String.append_assoc]⟩

/-- A member of a list appears, at some index, in its indexed map. -/
theorem mem_mapIdx_self {α β : Type} (l : List α) (a : α) (ha : a ∈ l)
    (f : ℕ → α → β) : ∃ n, f n a ∈ l.mapIdx f := by
  induction l generalizing f with
  | nil => cases ha
  | cons b t ih =>
    rw [List.mapIdx_cons]
    rcases List.mem_cons.mp ha with rfl | hmem
    · exact ⟨0, List.mem_cons_self _ _⟩
    · obtain ⟨n, hn⟩ := ih hmem (fun i => f (i + 1))
      exact ⟨n + 1, List.mem_cons_of_mem _ hn⟩

/-- The quick-edit prompt renders the selected region's bbox literal. -/
theorem quickEditPrompt_bbox (k : PresetKey) (obj : DetectedObject) :
    ∃ p q', quickEditPrompt k obj = p ++ bboxString obj.boundingBox ++ q' := by
  rw [quickEditPrompt]
  by_cases hk : k = .removeText
  · rw [if_pos hk]
    exact ⟨_, _, rfl⟩
  · rw [if_neg hk]
    exact ⟨_, _, rfl⟩

/-- The isolate prompt renders the selected region's bbox literal. -/
theorem isolatePrompt_bbox (obj : DetectedObject) :
    ∃ p q', isolatePrompt obj = p ++ bboxString obj.boundingBox ++ q' := by
  rw [isolatePrompt]
  exact ⟨_, _, by rw [String.append_assoc]⟩

/-- The remove prompt renders the bbox literal of every selected region. -/
theorem removePrompt_bbox (objs : List DetectedObject) (obj : DetectedObject)
    (h : obj ∈ objs) :
    ∃ p q', removePrompt objs = p ++ bboxString obj.boundingBox ++ q' := by
  obtain ⟨n, hn⟩ := mem_mapIdx_self objs obj h (fun i o => removeEntry (i + 1) o)
  obtain ⟨p, q', hpq⟩ := joinNL_decomp _ _ hn
  have hentry : removeEntry (n + 1) obj =
      (toString (n + 1) ++ ". The object \x27" ++ obj.label ++
        "\x27 located within bounding box ") ++ bboxString obj.boundingBox := rfl
  refine ⟨"Remove the following objects from the image and inpaint their areas naturally to match the surroundings:\n" ++
    (p ++ (toString (n + 1) ++ ". The object \x27" ++ obj.label ++
      "\x27 located within bounding box ")), q', ?_⟩
  rw [removePrompt, hpq, hentry]
  simp [String.append_assoc]

/-- The translate prompt renders the bbox literal of every selected region. -/
theorem translatePrompt_bbox (objs : List DetectedObject) (obj : DetectedObject)
    (h : obj ∈ objs) :
    ∃ p q', translatePrompt objs = p ++ bboxString obj.boundingBox ++ q' := by
  obtain ⟨n, hn⟩ := mem_mapIdx_self objs obj h (fun i o => translateEntry (i + 1) o)
  obtain ⟨p, q', hpq⟩ := joinNL_decomp _ _ hn
  have hentry : translateEntry (n + 1) obj =
      (toString (n + 1) ++ ". Original Text: \"" ++ obj.label ++
        "\", Bounding Box (y_min, x_min, y_max, x_max): ") ++
        bboxString obj.boundingBox := rfl
  refine ⟨"Translate the text in the following regions from Chinese to Korean. Then, replace the original text with the Korean translation. Ensure the new text fits naturally in the same location and matches the original style (font, color, size) as closely as possible.\n\nHere are the text regions to translate:\n" ++
    (p ++ (toString (n + 1) ++ ". Original Text: \"" ++ obj.label ++
      "\", Bounding Box (y_min, x_min, y_max, x_max): ")), q' ++ "\n", ?_⟩
  rw [translatePrompt, hpq, hentry]
  simp [String.append_assoc]

/-! ## C1 — bounding-box literal rendering -/

/-- C1: every prompt-synthesis operation (preset edit, isolate, remove,
translate) renders the selected region's bounding-box literal; the
literal fixes the coordinate order `[y_min, x_min, y_max, x_max]`; each
coordinate is rounded per the ECMAScript `toFixed(4)` rule and rendered
with exactly four digit characters after the decimal point; and the
region with `x_min = 0.1, y_min = 0.2, x_max = 0.3, y_max = 0.4` renders
as `[0.2000, 0.1000, 0.4000, 0.3000]`. -/
theorem C1_bbox_literal :
    bboxString ⟨mkRat 1 10, mkRat 2 10, mkRat 3 10, mkRat 4 10⟩ =
      "[0.2000, 0.1000, 0.4000, 0.3000]"
    ∧ (∀ b : BoundingBox, bboxString b =
        "[" ++ toFixed4 b.y_min ++ ", " ++ toFixed4 b.x_min ++ ", " ++
          toFixed4 b.y_max ++ ", " ++ toFixed4 b.x_max ++ "]")
    ∧ (∀ q : ℚ, 0 ≤ q → q ≤ 1 → ∃ m : ℕ, m ≤ 10000 ∧
        (m : ℤ) = ⌊q * 10000 + 1/2⌋ ∧
        toFixed4 q = toString (m / 10000) ++ "." ++ pad4 (m % 10000) ∧
        (pad4 (m % 10000)).length = 4 ∧
        ∀ c ∈ (pad4 (m % 10000)).data, c.isDigit = true)
    ∧ (∀ (k : PresetKey) (obj : DetectedObject),
        ∃ p q', quickEditPrompt k obj = p ++ bboxString obj.boundingBox ++ q')
    ∧ (∀ obj : DetectedObject,
        ∃ p q', isolatePrompt obj = p ++ bboxString obj.boundingBox ++ q')
    ∧ (∀ (objs : List DetectedObject) (obj : DetectedObject), obj ∈ objs →
        ∃ p q', removePrompt objs = p ++ bboxString obj.boundingBox ++ q')
    ∧ (∀ (objs : List DetectedObject) (obj : DetectedObject), obj ∈ objs →
        ∃ p q', translatePrompt objs = p ++ bboxString obj.boundingBox ++ q') := by
  refine ⟨by decide, fun b => rfl, ?_, quickEditPrompt_bbox, isolatePrompt_bbox,
    removePrompt_bbox, translatePrompt_bbox⟩
  intro q h0 h1
  refine ⟨toFixed4Round q, toFixed4Round_le q h0 h1, toFixed4Round_eq_floor q h0,
    ?_, pad4_length _, pad4_isDigit _⟩
  have hnum : ¬ q.num < 0 := not_lt.mpr (Rat.num_nonneg.mpr h0)
  rw [toFixed4, if_neg hnum, toFixed4Nonneg]

/-- Witness for C1: the four-digit shape at `0.1`, and the bbox literal
inside the remove prompt of the singleton selection `[rgA]`. -/
theorem C1_witness :
    (∃ m : ℕ, m ≤ 10000 ∧ (m : ℤ) = ⌊(mkRat 1 10) * 10000 + 1/2⌋ ∧
      toFixed4 (mkRat 1 10) = toString (m / 10000) ++ "." ++ pad4 (m % 10000) ∧
      (pad4 (m % 10000)).length = 4 ∧
      ∀ c ∈ (pad4 (m % 10000)).data, c.isDigit = true) ∧
    (∃ p q', removePrompt [rgA] = p ++ bboxString rgA.boundingBox ++ q') ∧
    (∃ p q', translatePrompt [rgA] = p ++ bboxString rgA.boundingBox ++ q') :=
  ⟨C1_bbox_literal.2.2.1 (mkRat 1 10) (by decide) (by decide),
   C1_bbox_literal.2.2.2.2.2.1 [rgA] rgA (List.mem_singleton.mpr rfl),
   C1_bbox_literal.2.2.2.2.2.2 [rgA] rgA (List.mem_singleton.mpr rfl)⟩

/-! ## C9 — numbered enumeration of selected regions -/

/-- An indexed map whose index is shifted by `k` is the map over the list
zipped with the numbers starting at `k`. -/
theorem mapIdx_shift_eq_zip_range' {α β : Type} (l : List α) :
    ∀ (k : ℕ) (g : ℕ → α → β),
      l.mapIdx (fun i a => g (i + k) a) =
        ((List.range' k l.length).zip l).map (fun p => g p.1 p.2) := by
  induction l with
  | nil => intro k g; rfl
  | cons a t ih =>
    intro k g
    rw [List.mapIdx_cons, List.length_cons, List.range'_succ, List.zip_cons_cons,
      List.map_cons]
    have harg : ∀ i b, g (i + 1 + k) b = g (i + (k + 1)) b := by
      intro i b
      congr 1
      omega
    have hfun : t.mapIdx (fun i a => g (i + 1 + k) a) =
        t.mapIdx (fun i a => g (i + (k + 1)) a) := by
      have : (fun i a => g (i + 1 + k) a) = (fun i a => g (i + (k + 1)) a) := by
        funext i b
        exact harg i b
      rw [this]
    rw [Nat.zero_add, hfun, ih (k + 1) g]

/-- C9: for a non-empty selection, the remove and translate prompts each
consist of their fixed header and the join of one numbered entry per
selected region — the numbers being exactly `1` through `N` in order,
paired with the regions in selection order. -/
theorem C9_numbered_entries (objs : List DetectedObject) (_hne : objs ≠ []) :
    removePrompt objs =
      "Remove the following objects from the image and inpaint their areas naturally to match the surroundings:\n" ++
        joinNL (((List.range' 1 objs.length).zip objs).map
          (fun p => removeEntry p.1 p.2))
    ∧ translatePrompt objs =
      "Translate the text in the following regions from Chinese to Korean. Then, replace the original text with the Korean translation. Ensure the new text fits naturally in the same location and matches the original style (font, color, size) as closely as possible.\n\nHere are the text regions to translate:\n" ++
        joinNL (((List.range' 1 objs.length).zip objs).map
          (fun p => translateEntry p.1 p.2)) ++ "\n"
    ∧ ((List.range' 1 objs.length).zip objs).map Prod.fst = List.range' 1 objs.length
    ∧ ((List.range' 1 objs.length).zip objs).map Prod.snd = objs
    ∧ ((List.range' 1 objs.length).zip objs).length = objs.length := by
  have hlen : (List.range' 1 objs.length).length = objs.length := by
    simp
  refine ⟨?_, ?_, ?_, ?_, ?_⟩
  · rw [removePrompt, mapIdx_shift_eq_zip_range' objs 1 (fun n o => removeEntry n o)]
  · rw [translatePrompt, mapIdx_shift_eq_zip_range' objs 1 (fun n o => translateEntry n o)]
  · exact List.map_fst_zip _ _ (le_of_eq hlen)
  · exact List.map_snd_zip _ _ (le_of_eq hlen.symm)
  · rw [List.length_zip, hlen, min_self]

/-- Witness for C9 at the two-region selection `[rgA, rgB]`. -/
theorem C9_witness :
    removePrompt [rgA, rgB] =
      "Remove the following objects from the image and inpaint their areas naturally to match the surroundings:\n" ++
        joinNL (((List.range' 1 2).zip [rgA, rgB]).map
          (fun p => removeEntry p.1 p.2))
    ∧ translatePrompt [rgA, rgB] =
      "Translate the text in the following regions from Chinese to Korean. Then, replace the original text with the Korean translation. Ensure the new text fits naturally in the same location and matches the original style (font, color, size) as closely as possible.\n\nHere are the text regions to translate:\n" ++
        joinNL (((List.range' 1 2).zip [rgA, rgB]).map
          (fun p => translateEntry p.1 p.2)) ++ "\n"
    ∧ ((List.range' 1 2).zip [rgA, rgB]).map Prod.fst = List.range' 1 2
    ∧ ((List.range' 1 2).zip [rgA, rgB]).map Prod.snd = [rgA, rgB]
    ∧ ((List.range' 1 2).zip [rgA, rgB]).length = 2 :=
  C9_numbered_entries [rgA, rgB] (by simp)

/-! ## C3 — detection response handling (corrected) -/

/-- Counterexample to C3 as stated: a body that cannot be parsed as JSON
(`JSON.parse` throws on `"not json"`) yields the detection failure error,
not the empty region list. -/
theorem C3_counterexample :
    detectObjects (fun _ => none) (.ok "not json") = .error detectObjectsFailMsg ∧
    detectObjects (fun _ => none) (.ok "not json") ≠ .ok (.jarr []) := by
  refine ⟨rfl, ?_⟩
  intro h
  rw [show detectObjects (fun _ => none) (Except.ok "not json") =
    Except.error detectObjectsFailMsg from rfl] at h
  exact Except.noConfusion h

/-- C3 (amended): for both detection calls, an empty (after trimming)
body yields the empty region list; an unparseable body yields the
detection error, as does a transport-level failure. -/
theorem C3_detect_response_handling :
    (∀ (parse : String → Option JsonVal) (text : String),
      jsTrim text = "" →
      detectObjects parse (.ok text) = .ok (.jarr []) ∧
      detectWatermarkText parse (.ok text) = .ok (.jarr []))
    ∧ (∀ (parse : String → Option JsonVal) (text : String),
      jsTrim text ≠ "" → parse (jsTrim text) = none →
      detectObjects parse (.ok text) = .error detectObjectsFailMsg ∧
      detectWatermarkText parse (.ok text) = .error detectWatermarkTextFailMsg)
    ∧ (∀ parse : String → Option JsonVal,
      detectObjects parse (.error ()) = .error detectObjectsFailMsg ∧
      detectWatermarkText parse (.error ()) = .error detectWatermarkTextFailMsg) := by
  refine ⟨?_, ?_, ?_⟩
  · intro parse text h
    have hbody : detectBodyRun parse text = .ok (.jarr []) := by
      rw [detectBodyRun]
      have hmt : ("" : String).isEmpty = true := rfl
      simp [h, hmt]
    constructor
    · rw [detectObjects, hbody]
    · rw [detectWatermarkText, hbody]
  · intro parse text hne hparse
    have hbody : detectBodyRun parse text = .error () := by
      rw [detectBodyRun]
      have : (jsTrim text).isEmpty = false := by
        rw [Bool.eq_false_iff]
        intro hT
        exact hne ((String.isEmpty_iff _).mp hT)
      simp [this, hparse]
    constructor
    · rw [detectObjects, hbody]
    · rw [detectWatermarkText, hbody]
  · intro parse
    exact ⟨rfl, rfl⟩

/-- Witness for C3 (amended) at concrete bodies: the whitespace body
yields zero detections, the unparseable body and the transport failure
yield the error. -/
theorem C3_witness :
    detectObjects (fun _ => none) (.ok "  ") = .ok (.jarr []) ∧
    detectWatermarkText (fun _ => none) (.ok "][") = .error detectWatermarkTextFailMsg ∧
    detectObjects (fun _ => none) (.error ()) = .error detectObjectsFailMsg :=
  ⟨(C3_detect_response_handling.1 (fun _ => none) "  " rfl).1,
   (C3_detect_response_handling.2.1 (fun _ => none) "][" (by decide) rfl).2,
   (C3_detect_response_handling.2.2 (fun _ => none)).1⟩

/-! ## C10 — objects-field fallback (corrected) -/

/-- Counterexample to C10 as stated: the body `"null"` parses as valid
JSON with no `objects` field, yet the detection operation throws (reading
`null.objects` is a `TypeError`) and returns the error, not the empty
region list. -/
theorem C10_counterexample :
    (fun _ : String => some JsonVal.jnull) (jsTrim "null") = some JsonVal.jnull ∧
    detectObjects (fun _ => some JsonVal.jnull) (.ok "null") =
      .error detectObjectsFailMsg ∧
    detectObjects (fun _ => some JsonVal.jnull) (.ok "null") ≠ .ok (.jarr []) := by
  refine ⟨rfl, rfl, ?_⟩
  intro h
  rw [show detectObjects (fun _ => some JsonVal.jnull) (Except.ok "null") =
    Except.error detectObjectsFailMsg from rfl] at h
  exact Except.noConfusion h

/-- C10 (amended): a detection response parsing as valid JSON whose
`objects` member read succeeds (in particular any value other than `null`)
with an absent or falsy `objects` field yields the empty region list; a
JSON `null` body yields the error instead, since the member read throws. -/
theorem C10_objects_fallback :
    (∀ (parse : String → Option JsonVal) (text : String) (v w : JsonVal),
      jsTrim text ≠ "" → parse (jsTrim text) = some v →
      jsGetMember v "objects" = .ok w → jsTruthy w = false →
      detectObjects parse (.ok text) = .ok (.jarr []) ∧
      detectWatermarkText parse (.ok text) = .ok (.jarr []))
    ∧ (∀ (parse : String → Option JsonVal) (text : String),
      jsTrim text ≠ "" → parse (jsTrim text) = some .jnull →
      detectObjects parse (.ok text) = .error detectObjectsFailMsg ∧
      detectWatermarkText parse (.ok text) = .error detectWatermarkTextFailMsg) := by
  constructor
  · intro parse text v w hne hparse hmem htruthy
    have hN : (jsTrim text).isEmpty = false := by
      rw [Bool.eq_false_iff]
      intro hT
      exact hne ((String.isEmpty_iff _).mp hT)
    have hbody : detectBodyRun parse text = .ok (.jarr []) := by
      rw [detectBodyRun]
      simp [hN, hparse, hmem, htruthy]
    constructor
    · rw [detectObjects, hbody]
    · rw [detectWatermarkText, hbody]
  · intro parse text hne hparse
    have hN : (jsTrim text).isEmpty = false := by
      rw [Bool.eq_false_iff]
      intro hT
      exact hne ((String.isEmpty_iff _).mp hT)
    have hbody : detectBodyRun parse text = .error () := by
      rw [detectBodyRun]
      simp [hN, hparse, jsGetMember]
    constructor
    · rw [detectObjects, hbody]
    · rw [detectWatermarkText, hbody]

/-- Witness for C10 (amended): a parsed object without a truthy `objects`
field yields the empty list, and a parsed `null` yields the error. -/
theorem C10_witness :
    detectObjects (fun _ => some (JsonVal.jobj [("status", JsonVal.jstr "ok")]))
      (.ok "x") = .ok (.jarr []) ∧
    detectWatermarkText (fun _ => some JsonVal.jnull) (.ok "null") =
      .error detectWatermarkTextFailMsg :=
  ⟨(C10_objects_fallback.1 (fun _ => some (JsonVal.jobj [("status", JsonVal.jstr "ok")]))
      "x" (JsonVal.jobj [("status", JsonVal.jstr "ok")]) JsonVal.jundefined
      (by decide) rfl rfl rfl).1,
   (C10_objects_fallback.2 (fun _ => some JsonVal.jnull) "null" (by decide) rfl).2⟩

/-! ## C6 helpers — loading exclusion along runs -/

/-- A state with both loading flags down is trivially loading-exclusive. -/
theorem loadingExclusive_of_flags (t : AppState) (hL : t.isLoading = false)
    (hB : t.isGeneratingBg = false) : LoadingExclusive t := by
  constructor
  · intro h
    exact absurd (hL.symm.trans h) Bool.false_ne_true
  · intro h
    exact absurd (hB.symm.trans h) Bool.false_ne_true

/-- `handleGenerate` from a quiescent state: the final state is quiescent
and every pending-entry state is loading-exclusive (its pending entry
clears the result and the error). -/
theorem handleGenerate_exclusive (s : AppState) (po : Option String)
    (backend : Except Unit GenResponse) (hL : s.isLoading = false)
    (hB : s.isGeneratingBg = false) :
    (handleGenerate s po backend).final.isLoading = false ∧
    (handleGenerate s po backend).final.isGeneratingBg = false ∧
    ∀ t ∈ (handleGenerate s po backend).pending.toList, LoadingExclusive t := by
  rw [handleGenerate]
  by_cases hg : (s.image.isNone || (effectivePrompt s po).isEmpty) = true
  · rw [if_pos hg]
    refine ⟨hL, hB, ?_⟩
    intro t ht
    simp at ht
  · rw [if_neg hg]
    cases hE : editImage backend with
    | ok d =>
      refine ⟨rfl, hB, ?_⟩
      intro t ht
      rcases List.mem_singleton.mp ht with rfl
      exact ⟨fun _ => ⟨rfl, rfl⟩, fun _ => rfl⟩
    | error msg =>
      refine ⟨rfl, hB, ?_⟩
      intro t ht
      rcases List.mem_singleton.mp ht with rfl
      exact ⟨fun _ => ⟨rfl, rfl⟩, fun _ => rfl⟩

/-- `handleQuickEdit` from a quiescent state preserves quiescence and
publishes only loading-exclusive pending states. -/
theorem handleQuickEdit_exclusive (s : AppState) (k : PresetKey)
    (backend : Except Unit GenResponse) (hL : s.isLoading = false)
    (hB : s.isGeneratingBg = false) :
    (handleQuickEdit s k backend).final.isLoading = false ∧
    (handleQuickEdit s k backend).final.isGeneratingBg = false ∧
    ∀ t ∈ (handleQuickEdit s k backend).pending.toList, LoadingExclusive t := by
  rw [handleQuickEdit]
  by_cases himg : s.image.isNone = true
  · rw [if_pos himg]
    refine ⟨hL, hB, ?_⟩
    intro t ht
    simp at ht
  · rw [if_neg himg]
    rcases hsel : s.selectedObjects with _ | ⟨a, _ | ⟨b, t0⟩⟩
    · refine ⟨hL, hB, ?_⟩
      intro t ht
      simp at ht
    · exact handleGenerate_exclusive _ _ _ hL hB
    · refine ⟨hL, hB, ?_⟩
      intro t ht
      simp at ht

/-- `handleObjectAction` from a quiescent state preserves quiescence and
publishes only loading-exclusive pending states. -/
theorem handleObjectAction_exclusive (s : AppState) (action : ObjectAction)
    (backend : Except Unit GenResponse) (hL : s.isLoading = false)
    (hB : s.isGeneratingBg = false) :
    (handleObjectAction s action backend).final.isLoading = false ∧
    (handleObjectAction s action backend).final.isGeneratingBg = false ∧
    ∀ t ∈ (handleObjectAction s action backend).pending.toList, LoadingExclusive t := by
  rw [handleObjectAction]
  rcases hsel : s.selectedObjects with _ | ⟨a, rest⟩
  · refine ⟨hL, hB, ?_⟩
    intro t ht
    simp at ht
  · cases action with
    | isolate =>
      cases rest with
      | nil => exact handleGenerate_exclusive _ _ _ hL hB
      | cons b t0 =>
        refine ⟨hL, hB, ?_⟩
        intro t ht
        simp at ht
    | remove => exact handleGenerate_exclusive _ _ _ hL hB

/-- `handleTranslate` from a quiescent state preserves quiescence and
publishes only loading-exclusive pending states. -/
theorem handleTranslate_exclusive (s : AppState)
    (backend : Except Unit GenResponse) (hL : s.isLoading = false)
    (hB : s.isGeneratingBg = false) :
    (handleTranslate s backend).final.isLoading = false ∧
    (handleTranslate s backend).final.isGeneratingBg = false ∧
    ∀ t ∈ (handleTranslate s backend).pending.toList, LoadingExclusive t := by
  rw [handleTranslate]
  rcases hsel : s.selectedObjects with _ | ⟨a, rest⟩
  · refine ⟨hL, hB, ?_⟩
    intro t ht
    simp at ht
  · exact handleGenerate_exclusive _ _ _ hL hB

/-- `detectStep` from a quiescent state preserves quiescence and
publishes only loading-exclusive pending states. -/
theorem detectStep_exclusive (s : AppState)
    (res : Except String (List DetectedObject)) (hL : s.isLoading = false)
    (hB : s.isGeneratingBg = false) :
    (detectStep s res).2.isLoading = false ∧
    (detectStep s res).2.isGeneratingBg = false ∧
    ∀ t ∈ (detectStep s res).1, LoadingExclusive t := by
  rw [detectStep]
  by_cases himg : s.image.isNone = true
  · rw [if_pos himg]
    refine ⟨hL, hB, ?_⟩
    intro t ht
    simp at ht
  · rw [if_neg himg]
    cases res with
    | ok objects =>
      refine ⟨rfl, hB, ?_⟩
      intro t ht
      rcases List.mem_singleton.mp ht with rfl
      exact ⟨fun _ => ⟨rfl, rfl⟩, fun _ => rfl⟩
    | error msg =>
      refine ⟨rfl, hB, ?_⟩
      intro t ht
      rcases List.mem_singleton.mp ht with rfl
      exact ⟨fun _ => ⟨rfl, rfl⟩, fun _ => rfl⟩

/-- `generateBackgroundStep` from a quiescent state preserves quiescence;
its pending state raises only the background flag and clears the error
(but not the previously generated background). -/
theorem generateBackgroundStep_exclusive (s : AppState)
    (backend : Except Unit GenResponse) (hL : s.isLoading = false)
    (hB : s.isGeneratingBg = false) :
    (generateBackgroundStep s backend).2.isLoading = false ∧
    (generateBackgroundStep s backend).2.isGeneratingBg = false ∧
    ∀ t ∈ (generateBackgroundStep s backend).1, LoadingExclusive t := by
  rw [generateBackgroundStep]
  by_cases hp : s.backgroundPrompt.isEmpty = true
  · rw [if_pos hp]
    refine ⟨hL, hB, ?_⟩
    intro t ht
    simp at ht
  · rw [if_neg hp]
    cases hG : generateImageFromPrompt backend with
    | ok d =>
      refine ⟨hL, rfl, ?_⟩
      intro t ht
      rcases List.mem_singleton.mp ht with rfl
      exact ⟨fun h => absurd (hL.symm.trans h) Bool.false_ne_true, fun _ => rfl⟩
    | error msg =>
      refine ⟨hL, rfl, ?_⟩
      intro t ht
      rcases List.mem_singleton.mp ht with rfl
      exact ⟨fun h => absurd (hL.symm.trans h) Bool.false_ne_true, fun _ => rfl⟩

/-- One machine step from a quiescent state: the final state is quiescent
and every published intermediate state is loading-exclusive. -/
theorem stepM_exclusive (s : AppState) (e : Event) (hL : s.isLoading = false)
    (hB : s.isGeneratingBg = false) :
    (stepM s e).2.isLoading = false ∧
    (stepM s e).2.isGeneratingBg = false ∧
    ∀ t ∈ (stepM s e).1, LoadingExclusive t := by
  cases e with
  | fileChange res =>
    cases res with
    | ok file =>
      refine ⟨hL, hB, ?_⟩
      intro t ht
      simp [stepM] at ht
    | error u =>
      refine ⟨hL, hB, ?_⟩
      intro t ht
      simp [stepM] at ht
  | clearImage =>
    refine ⟨hL, hB, ?_⟩
    intro t ht
    simp [stepM] at ht
  | setPrompt p =>
    refine ⟨hL, hB, ?_⟩
    intro t ht
    simp [stepM] at ht
  | generate po backend => exact handleGenerate_exclusive s po backend hL hB
  | quickEdit k backend => exact handleQuickEdit_exclusive s k backend hL hB
  | objectAction a backend => exact handleObjectAction_exclusive s a backend hL hB
  | translate backend => exact handleTranslate_exclusive s backend hL hB
  | detectObjectsEv res => exact detectStep_exclusive s res hL hB
  | detectTextEv res => exact detectStep_exclusive s res hL hB
  | objectSelect o =>
    refine ⟨hL, hB, ?_⟩
    intro t ht
    simp [stepM] at ht
  | setBackgroundPrompt p =>
    refine ⟨hL, hB, ?_⟩
    intro t ht
    simp [stepM] at ht
  | generateBackground backend => exact generateBackgroundStep_exclusive s backend hL hB

/-- Every state published along a run from a quiescent state is
loading-exclusive. -/
theorem visited_exclusive (es : List Event) : ∀ s : AppState,
    s.isLoading = false → s.isGeneratingBg = false →
    ∀ t ∈ visited s es, LoadingExclusive t := by
  induction es with
  | nil =>
    intro s hL hB t ht
    rw [visited] at ht
    rcases List.mem_singleton.mp ht with rfl
    exact loadingExclusive_of_flags t hL hB
  | cons e es ih =>
    intro s hL hB t ht
    rw [visited] at ht
    rcases List.mem_cons.mp ht with rfl | hmem
    · exact loadingExclusive_of_flags t hL hB
    · obtain ⟨hfL, hfB, hmids⟩ := stepM_exclusive s e hL hB
      rcases List.mem_append.mp hmem with hmid | hrest
      · exact hmids t hmid
      · exact ih (stepM s e).2 hfL hfB t hrest

/-! ## C6 — loading/result/error exclusion (corrected) -/

/-- Counterexample to C6 as stated: along a run of generation operations,
the machine publishes a state whose stored result and stored error are
both present (a precondition failure after a success does not clear the
prior result), and a state whose background loading flag is up while the
previously generated background is still stored (the background pending
entry does not clear the prior result). -/
theorem C6_counterexample :
    (∃ t ∈ visited initState c6Trace, t.resultImage ≠ none ∧ t.error ≠ none) ∧
    (∃ t ∈ visited initState c6Trace, t.isGeneratingBg = true ∧
      t.generatedBackground ≠ none) := by
  decide

/-- C6 (amended): in every state published along any run from the initial
state, the main loading flag excludes both the stored result and the
stored error, and the background loading flag excludes the stored error;
moreover every generation attempt that enters pending publishes a pending
state with the loading flag up and the prior result and error cleared. -/
theorem C6_loading_exclusive :
    (∀ (es : List Event) (t : AppState), t ∈ visited initState es →
      LoadingExclusive t)
    ∧ (∀ (s : AppState) (po : Option String) (backend : Except Unit GenResponse)
        (sp : AppState), (handleGenerate s po backend).pending = some sp →
        sp.isLoading = true ∧ sp.resultImage = none ∧ sp.error = none) := by
  constructor
  · intro es t ht
    exact visited_exclusive es initState rfl rfl t ht
  · intro s po backend sp hsp
    rw [handleGenerate] at hsp
    by_cases hg : (s.image.isNone || (effectivePrompt s po).isEmpty) = true
    · rw [if_pos hg] at hsp
      cases hsp
    · rw [if_neg hg] at hsp
      cases Option.some.inj hsp
      exact ⟨rfl, rfl, rfl⟩

/-- Witness for C6 (amended): the initial state of the empty run is
loading-exclusive, and the pending state of a generation attempt from a
ready state has loading up with result and error cleared. -/
theorem C6_witness :
    LoadingExclusive initState ∧
    ({ sReady with isLoading := true, error := none, resultImage := none } : AppState).isLoading = true ∧
    ({ sReady with isLoading := true, error := none, resultImage := none } : AppState).resultImage = none ∧
    ({ sReady with isLoading := true, error := none, resultImage := none } : AppState).error = none :=
  ⟨C6_loading_exclusive.1 [] initState (List.mem_singleton.mpr rfl),
   C6_loading_exclusive.2 sReady none (okResp "D")
     { sReady with isLoading := true, error := none, resultImage := none } rfl⟩
